import Mathlib

/-!
Verification of the templater tool (`src/main.go`, current version, lines 1-507).

The development shallowly embeds the path-conversion, change-classification and
output-gate logic of the program.  Go strings are modelled as `List Char`
(Go indexes bytes; for the ASCII data handled here byte positions and
character positions coincide).  File contents are modelled as `List Nat`
(byte lists compared with `reflect.DeepEqual`, i.e. element-wise equality).
Fallible operations return `Option`/`Except`; `log.Fatalf` is modelled as
`Option.none`.  Functions keep the names of the Go functions they embed.
-/

namespace Templater

/-- Go strings, modelled as lists of characters. -/
abbrev GoStr := List Char

/-- File contents (Go `[]byte`), modelled as lists of bytes. -/
abbrev Bytes := List Nat

/-! ## Go `path` package (slash-separated paths)

`convertOutputPath` uses `path.Clean`, `path.Dir`, `path.Base` and
`path.Join`.  `pathClean` below transliterates the loop of Go's
`path.Clean`, keeping the output buffer in reverse order; `fuel` bounds the
iteration count (every iteration consumes at least one input character, so
`length + 1` fuel is always enough). -/

/-- Inner loop of the `..` backtracking step of Go `path.Clean`
(`for out.w > dotdot && out.index(out.w) != '/' { out.w-- }`).
`last` is the character most recently dropped, i.e. the character at the
current write index; `rout` is the buffer in reverse order. -/
def popLoop (dotdot : Nat) : Char → List Char → List Char
  | _, [] => []
  | last, c :: rest =>
    if rest.length + 1 > dotdot ∧ last ≠ '/' then popLoop dotdot c rest
    else c :: rest

/-- Backtracking step of Go `path.Clean` for a `..` element
(`out.w--` followed by the `popLoop` scan back to the previous slash). -/
def backtrack (dotdot : Nat) : List Char → List Char
  | [] => []
  | c :: rest => popLoop dotdot c rest

/-- Main loop of Go `path.Clean`.  `racc` is the output buffer in reverse
order, `dotdot` the index in the buffer where `..` backtracking must stop. -/
def cleanLoop (rooted : Bool) : Nat → List Char → Nat → List Char → List Char
  | 0, _, _, racc => racc
  | _ + 1, [], _, racc => racc
  | fuel + 1, c :: r, dotdot, racc =>
    if c = '/' then
      cleanLoop rooted fuel r dotdot racc
    else if c = '.' ∧ (r = [] ∨ r.head? = some '/') then
      cleanLoop rooted fuel r dotdot racc
    else if c = '.' ∧ r.head? = some '.' ∧ (r.tail = [] ∨ r.tail.head? = some '/') then
      if racc.length > dotdot then
        cleanLoop rooted fuel r.tail dotdot (backtrack dotdot racc)
      else if rooted = false then
        let racc₁ := if racc.length > 0 then '/' :: racc else racc
        cleanLoop rooted fuel r.tail (racc₁.length + 2) ('.' :: '.' :: racc₁)
      else
        cleanLoop rooted fuel r.tail dotdot racc
    else
      let seg := (c :: r).takeWhile (fun x => x ≠ '/')
      let rest := (c :: r).dropWhile (fun x => x ≠ '/')
      let racc₁ :=
        if (rooted = true ∧ racc.length ≠ 1) ∨ (rooted = false ∧ racc.length ≠ 0) then
          '/' :: racc
        else racc
      cleanLoop rooted fuel rest dotdot (seg.reverse ++ racc₁)

/-- Go `path.Clean`: lexical normalisation of a slash-separated path. -/
def pathClean (p : GoStr) : GoStr :=
  if p = [] then ['.']
  else
    let rooted : Bool := match p with | '/' :: _ => true | _ => false
    let racc₀ : List Char := if rooted then ['/'] else []
    let dotdot₀ : Nat := if rooted then 1 else 0
    let input := if rooted then p.tail else p
    let racc := cleanLoop rooted (p.length + 1) input dotdot₀ racc₀
    if racc = [] then ['.'] else racc.reverse

/-- Go `path.Split`: splits a path immediately after its last slash.
With no slash present the directory part is empty. -/
def splitPath (p : GoStr) : GoStr × GoStr :=
  let k := (p.reverse.takeWhile (fun c => c ≠ '/')).length
  (p.take (p.length - k), p.drop (p.length - k))

/-- Go `path.Dir`: the `Clean`ed directory part of `Split`. -/
def pathDir (p : GoStr) : GoStr := pathClean (splitPath p).1

/-- Go `path.Base`: last element of the path after stripping trailing
slashes; `"."` for the empty path, `"/"` for all-slash paths. -/
def pathBase (p : GoStr) : GoStr :=
  if p = [] then ['.']
  else
    let p₁ := (p.reverse.dropWhile (fun c => c = '/')).reverse
    let p₂ := p₁.reverse.takeWhile (fun c => c ≠ '/')
    if p₂ = [] then ['/'] else p₂.reverse

/-- Go `path.Join` restricted to two elements: empty elements are dropped,
the remaining ones are joined with a slash and `Clean`ed; all-empty input
yields the empty string. -/
def pathJoin (a b : GoStr) : GoStr :=
  if a = [] ∧ b = [] then []
  else if a = [] then pathClean b
  else if b = [] then pathClean a
  else pathClean (a ++ '/' :: b)

/-! ## Suffix stripping and the scanner's filename pattern -/

/-- The literal `"." + extension` with `extension = "tmpl"`. -/
def tmplSuffix : GoStr := ['.', 't', 'm', 'p', 'l']

/-- Go `strings.Replace(s, pat, "", 1)` for a non-empty `pat`: removes the
first occurrence of `pat` from `s`, leaves `s` unchanged if `pat` does not
occur. -/
def replaceFirst : GoStr → GoStr → GoStr
  | [], _ => []
  | c :: rest, pat =>
    if pat.isPrefixOf (c :: rest) then (c :: rest).drop pat.length
    else c :: replaceFirst rest pat

/-- `stripTempl` (main.go lines 227-229): removes the first occurrence of
`".tmpl"` from a file base name. -/
def stripTempl (base : GoStr) : GoStr := replaceFirst base tmplSuffix

/-- The `(\.|$)` tail of the scanner's regular expression: after the
`.tmpl` group the name must end or continue with a literal dot. -/
def boundaryAfter : List Char → Bool
  | [] => true
  | c :: _ => c == '.'

/-- Matching of `templRegEx` (main.go line 41): Go
`regexp.MustCompile("^.*(\\.tmpl)(\\.|$)").MatchString(name)`.
The pattern is anchored at the start; `.*` matches any characters except
newline, so an occurrence of `".tmpl"` only counts if no newline precedes
it; the occurrence must be followed by a dot or the end of the name. -/
def templRegExMatch : List Char → Bool
  | [] => false
  | c :: r =>
    (tmplSuffix.isPrefixOf (c :: r) && boundaryAfter ((c :: r).drop tmplSuffix.length))
      || (c != '\n' && templRegExMatch r)

/-! ## Interactive prompt answer handling -/

/-- ASCII whitespace recognised by Go `strings.TrimSpace` (the Unicode
space classes beyond ASCII are not modelled; prompt answers are console
input). -/
def isSpaceChar (c : Char) : Bool :=
  c == ' ' || c == '\t' || c == '\n' || c == '\r' || c == '\x0B' || c == '\x0C'

/-- Go `strings.TrimSpace`: drops leading and trailing whitespace. -/
def trimSpace (s : GoStr) : GoStr :=
  ((s.dropWhile isSpaceChar).reverse.dropWhile isSpaceChar).reverse

/-- Go `strings.EqualFold`, modelled as case-insensitive comparison via
`Char.toLower`. -/
def eqFold (a b : GoStr) : Bool :=
  a.map Char.toLower == b.map Char.toLower

/-- The acceptance test of `promptAndCreateOutputFile` (main.go line 320):
the trimmed answer equals `"y"` or `"yes"` up to case. -/
def promptYes (text : GoStr) : Bool :=
  eqFold (trimSpace text) ['y'] || eqFold (trimSpace text) ['y', 'e', 's']

/-! ## Data model: decisions, filesystem state, flags -/

/-- The per-file change decision computed by `scan` (the `mode` string). -/
inductive Mode
  | CREATE
  | MODIFY
  | KEEP
  | FAIL
deriving DecidableEq, Repr

/-- Errors from looking up the existing output file: Go distinguishes
`os.IsNotExist(err)` from every other error. -/
inductive FileErr
  | notExist
  | other
deriving DecidableEq, Repr

/-- State of the output path on disk: whether a file is present, whether
its contents can be read, the contents themselves, the read-only bit
(mode 0444) and whether the parent directory exists. -/
structure OutState where
  present : Bool
  readable : Bool
  contents : Bytes
  readOnly : Bool
  parentExists : Bool
deriving DecidableEq, Repr

/-- The command-line flags of the program that the modelled code paths
consult (main.go lines 329-341); `inFlag` models the Go field `in`,
which is a reserved word in Lean. -/
structure Flags where
  scan : Bool
  porcelain : Bool
  dryRun : Bool
  interactive : Bool
  readOnly : Bool
  out : GoStr
  inFlag : GoStr
  origParent : GoStr
  newParent : GoStr
deriving DecidableEq, Repr

/-- `Flags.isStdin` (main.go lines 359-361). -/
def Flags.isStdin (f : Flags) : Bool := f.inFlag == [] && !f.scan

/-- `Flags.shouldDryRun` (main.go lines 347-349). -/
def Flags.shouldDryRun (f : Flags) : Bool := f.dryRun

/-- `Flags.shouldPromptBeforeWrite` (main.go lines 351-353). -/
def Flags.shouldPromptBeforeWrite (f : Flags) : Bool := f.interactive && !f.isStdin

/-- `Flags.shouldScan` (main.go lines 343-345). -/
def Flags.shouldScan (f : Flags) : Bool := f.scan && f.inFlag == [] && f.out == []

/-! ## Filesystem operations on the output path -/

/-- `Flags.getExistingOutputFileContents` (main.go lines 386-401):
`os.Open` fails with a not-exist error on an absent file and with some
other error on an unreadable one; otherwise the contents are returned. -/
def getExistingOutputFileContents (s : OutState) : Except FileErr Bytes :=
  if s.present = false then .error .notExist
  else if s.readable = false then .error .other
  else .ok s.contents

/-- Result of `os.Stat` on the output path: succeeds exactly when the file
is present. -/
def statOk (s : OutState) : Bool := s.present

/-- `os.Remove(outputPath)`: afterwards no file is present. -/
def osRemove (s : OutState) : OutState := { s with present := false }

/-- `os.MkdirAll(dir, os.ModePerm)`: afterwards the parent directory
exists. -/
def osMkdirAll (s : OutState) : OutState := { s with parentExists := true }

/-- `os.Create(outputPath)`: fails when the parent directory is missing or
when a read-only file is in the way; otherwise leaves a fresh empty
writable file. -/
def osCreate (s : OutState) : Except Unit OutState :=
  if s.parentExists = false then .error ()
  else if s.present = true ∧ s.readOnly = true then .error ()
  else .ok { present := true, readable := true, contents := [],
             readOnly := false, parentExists := s.parentExists }

/-- `markFileReadOnly` (main.go lines 285-287): `os.Chmod(outputPath, 0444)`,
which fails when no file is present. -/
def markFileReadOnly (s : OutState) : Except Unit OutState :=
  if s.present = true then .ok { s with readOnly := true } else .error ()

/-- `createOutputFile` (main.go lines 289-298): removes whatever file is at
the output path, creates the parent directories, then creates the file. -/
def createOutputFile (s : OutState) : Except Unit OutState :=
  osCreate (osMkdirAll (osRemove s))

/-- The state `createOutputFile` leaves behind: a fresh, empty, writable
file with its parent directory in place. -/
def freshOutputFile : OutState :=
  { present := true, readable := true, contents := [],
    readOnly := false, parentExists := true }

/-! ## Path mapping -/

/-- Go `path.IsAbs`: a path is absolute iff it starts with a slash. -/
def pathIsAbs (p : GoStr) : Bool :=
  match p with
  | '/' :: _ => true
  | _ => false

/-- Go `filepath.Abs` on a Unix system, with the process working
directory `cwd` as an explicit parameter: an absolute path is `Clean`ed,
anything else — including the empty string of an unset flag — is joined
onto `cwd`.  In particular the result is never the empty string. -/
def filepathAbs (cwd p : GoStr) : GoStr :=
  if pathIsAbs p = true then pathClean p else pathJoin cwd p

/-- `Flags.origParentAbs` (main.go lines 424-430): `filepath.Abs` of the
`-orig` flag value; for an unset flag this is the working directory. -/
def Flags.origParentAbs (f : Flags) (cwd : GoStr) : GoStr := filepathAbs cwd f.origParent

/-- `Flags.newParentAbs` (main.go lines 416-422): `filepath.Abs` of the
`-new` flag value; for an unset flag this is the working directory. -/
def Flags.newParentAbs (f : Flags) (cwd : GoStr) : GoStr := filepathAbs cwd f.newParent

/-- The output-directory computation of `convertOutputPath`
(main.go lines 262-278): with both prefix arguments non-empty the input
directory must start with `origParent` (`none` models the `log.Fatalf`
abort), and the matched prefix is replaced by `newParent`; with either
prefix argument empty the input directory is kept — a branch the running
program never reaches, because its arguments come from `filepath.Abs`
(see `Flags.origParentAbs`), which never returns the empty string. -/
def convertDir (inputDir origParent newParent : GoStr) : Option GoStr :=
  if origParent ≠ [] ∧ newParent ≠ [] then
    if origParent.isPrefixOf inputDir then
      some (if origParent.length = inputDir.length then newParent
            else newParent ++ inputDir.drop origParent.length)
    else none
  else some inputDir

/-- `convertOutputPath` (main.go lines 234-281) for a non-empty scanned
path (the scanning mode; the empty-path branch re-enters through the `-in`
flag and is not modelled).  `origParent` and `newParent` are the values of
`origParentAbs()` and `newParentAbs()` (main.go lines 256-257): since
`filepath.Abs` never returns the empty string, in the running program both
arguments are non-empty — an unset flag arrives as the absolutized working
directory, not as the empty string.  `none` models the fatal
prefix-mismatch abort. -/
def convertOutputPath (scannedPath origParent newParent : GoStr) : Option GoStr :=
  let cleaned := pathClean scannedPath
  let inputDir := pathDir cleaned
  let inputBase := pathBase cleaned
  (convertDir inputDir origParent newParent).map
    (fun outputDir => pathJoin outputDir (stripTempl inputBase))

/-- `convertOutputPath` exactly as the scan invokes it: the prefix
arguments are obtained by absolutizing the flag values against the
working directory (main.go lines 256-257). -/
def convertOutputPathFlags (cwd : GoStr) (f : Flags) (scannedPath : GoStr) : Option GoStr :=
  convertOutputPath scannedPath (f.origParentAbs cwd) (f.newParentAbs cwd)

/-! ## Change classification and the per-file scan step -/

/-- Log messages the per-file scan step can emit. -/
inductive LogEvent
  | openFailed
  | execFailed
  | unexpectedExisting
  | createFailed
  | copyFailed
  | chmodFailed
deriving DecidableEq, Repr

/-- The `mode` computation of `scan` (main.go lines 84-104) together with
the log messages it prints: a render error gives `FAIL`; a failed
existing-content lookup gives `CREATE` (logging the error unless it is
not-exist); otherwise byte-equality decides `KEEP` versus `MODIFY`. -/
def classifyWithLogs (render : Except Unit Bytes) (existing : Except FileErr Bytes) :
    Mode × List LogEvent :=
  match render with
  | .error _ => (.FAIL, [.execFailed])
  | .ok b =>
    match existing with
    | .error .notExist => (.CREATE, [])
    | .error .other => (.CREATE, [.unexpectedExisting])
    | .ok e => if b = e then (.KEEP, []) else (.MODIFY, [])

/-- The change decision alone (first component of `classifyWithLogs`). -/
def classifyMode (render : Except Unit Bytes) (existing : Except FileErr Bytes) : Mode :=
  (classifyWithLogs render existing).1

/-- The writer handed back by the output gate: a real file or the dry-run
discard sink (`ioutil.Discard`). -/
inductive Writer
  | file
  | discard
deriving DecidableEq, Repr

/-- Errors of the output gate: the sentinel `skipReplace` for a declined
prompt, or an I/O error from `createOutputFile`. -/
inductive GateErr
  | skipReplace
  | ioErr
deriving DecidableEq, Repr

/-- `promptAndCreateOutputFile` (main.go lines 300-327): dry-run returns
the discard sink; without prompting, or for an absent file, the output
file is created directly; otherwise the prompt answer decides between
creating the file and the `skipReplace` outcome. -/
def promptAndCreateOutputFile (f : Flags) (answer : GoStr) (s : OutState) :
    Except GateErr (Writer × OutState) :=
  if f.shouldDryRun = true then .ok (.discard, s)
  else if f.shouldPromptBeforeWrite = false then
    match createOutputFile s with
    | .ok s₁ => .ok (.file, s₁)
    | .error _ => .error .ioErr
  else if statOk s = false then
    match createOutputFile s with
    | .ok s₁ => .ok (.file, s₁)
    | .error _ => .error .ioErr
  else if promptYes answer = true then
    match createOutputFile s with
    | .ok s₁ => .ok (.file, s₁)
    | .error _ => .error .ioErr
  else .error .skipReplace

/-- Outcome of processing one discovered file: the status line printed for
it (`none` when the walk callback returns early), the log messages, and
the resulting state of the output path. -/
structure StepOut where
  line : Option Mode
  logs : List LogEvent
  state : OutState
deriving DecidableEq, Repr

/-- The per-file body of `scan` (main.go lines 76-144): classification,
the write through the output gate for `MODIFY`/`CREATE` decisions (a
`skipReplace` outcome returns silently, a gate error is logged, a copy
error demotes the decision to `FAIL`), the read-only chmod when `-ro` is
set, and finally the status line.  `openOk` models whether opening the
template succeeded, `render` the `executeTemplate` outcome, `copyOk`
whether `io.Copy` to a real file would succeed. -/
def scanStep (f : Flags) (openOk : Bool) (render : Except Unit Bytes)
    (answer : GoStr) (copyOk : Bool) (s : OutState) : StepOut :=
  if openOk = false then ⟨none, [.openFailed], s⟩
  else
    let cl := classifyWithLogs render (getExistingOutputFileContents s)
    if cl.1 = Mode.MODIFY ∨ cl.1 = Mode.CREATE then
      match promptAndCreateOutputFile f answer s with
      | .error .skipReplace => ⟨none, cl.2, s⟩
      | .error .ioErr => ⟨none, cl.2 ++ [.createFailed], s⟩
      | .ok (w, s₁) =>
        let b := match render with | .ok bb => bb | .error _ => []
        let afterCopy : Mode × List LogEvent × OutState :=
          match w with
          | .file =>
            if copyOk = true then (cl.1, cl.2, { s₁ with contents := b })
            else (Mode.FAIL, cl.2 ++ [.copyFailed], s₁)
          | .discard => (cl.1, cl.2, s₁)
        let afterChmod : List LogEvent × OutState :=
          if f.readOnly = true then
            match markFileReadOnly afterCopy.2.2 with
            | .ok s₂ => (afterCopy.2.1, s₂)
            | .error _ => (afterCopy.2.1 ++ [.chmodFailed], afterCopy.2.2)
          else (afterCopy.2.1, afterCopy.2.2)
        ⟨some afterCopy.1, afterChmod.1, afterChmod.2⟩
    else ⟨some cl.1, cl.2, s⟩

/-! ## Shared helper lemmas -/

/-- `createOutputFile` always succeeds and leaves a fresh writable file:
the preceding `os.Remove` clears any (possibly read-only) file and
`os.MkdirAll` supplies the parent directory. -/
theorem createOutputFile_eq (s : OutState) : createOutputFile s = .ok freshOutputFile := by
  simp [createOutputFile, osCreate, osMkdirAll, osRemove, freshOutputFile]

/-- Bool-level reflexivity of `List.isPrefixOf`. -/
theorem isPrefixOf_self (l : GoStr) : l.isPrefixOf l = true :=
  List.isPrefixOf_iff_prefix.mpr (List.prefix_refl l)

/-- Bool-level prefix of an append. -/
theorem isPrefixOf_append_right (l t : GoStr) : l.isPrefixOf (l ++ t) = true :=
  List.isPrefixOf_iff_prefix.mpr (List.prefix_append l t)

/-- Generic rewrite behaviour of `convertDir` when both prefixes are set
and the prefix check passes. -/
theorem convertDir_rewrite (d op np : GoStr) (ho : op ≠ []) (hn : np ≠ [])
    (hpre : op.isPrefixOf d = true) :
    convertDir d op np = some (np ++ d.drop op.length) := by
  unfold convertDir
  rw [if_pos ⟨ho, hn⟩, if_pos hpre]
  by_cases hlen : op.length = d.length
  · have hd : d.drop op.length = [] := by rw [hlen]; exact List.drop_length d
    rw [if_pos hlen, hd, List.append_nil]
  · rw [if_neg hlen]

/-! ## C1 -/

/-- C1: the change classification of `scan` is FAIL exactly on render
errors (for every state of the output path), CREATE when the output path
does not exist, KEEP when the existing bytes equal the rendered bytes,
and MODIFY when they differ. -/
theorem scan_change_classification :
    (∀ existing : Except FileErr Bytes, classifyMode (.error ()) existing = Mode.FAIL)
  ∧ (∀ b : Bytes, classifyMode (.ok b) (.error .notExist) = Mode.CREATE)
  ∧ (∀ b : Bytes, classifyMode (.ok b) (.ok b) = Mode.KEEP)
  ∧ (∀ b e : Bytes, b ≠ e → classifyMode (.ok b) (.ok e) = Mode.MODIFY) := by
  refine ⟨fun existing => rfl, fun b => rfl, fun b => ?_, fun b e hne => ?_⟩
  · simp [classifyMode, classifyWithLogs]
  · simp [classifyMode, classifyWithLogs, hne]

/-- Witness for C1 at concrete bytes. -/
theorem scan_change_classification_witness :
    classifyMode (.ok [0]) (.ok [1]) = Mode.MODIFY :=
  scan_change_classification.2.2.2 [0] [1] (by decide)

/-! ## C2 -/

/-- C2: with both prefixes configured, a template path whose directory
does not start with `origParent` makes the mapping abort fatally
(`none`); no fallback output path is produced. -/
theorem prefix_mismatch_fatal (p origParent newParent : GoStr)
    (ho : origParent ≠ []) (hn : newParent ≠ [])
    (hpre : origParent.isPrefixOf (pathDir (pathClean p)) = false) :
    convertOutputPath p origParent newParent = none := by
  unfold convertOutputPath
  have hdir : convertDir (pathDir (pathClean p)) origParent newParent = none := by
    unfold convertDir
    rw [if_pos ⟨ho, hn⟩, if_neg (by simp [hpre])]
  simp [hdir]

/-- Witness for C2: mapping `/a/b.tmpl` with prefix pair `/x` to `/y`
aborts. -/
theorem prefix_mismatch_fatal_witness :
    convertOutputPath ['/', 'a', '/', 'b', '.', 't', 'm', 'p', 'l']
      ['/', 'x'] ['/', 'y'] = none :=
  prefix_mismatch_fatal ['/', 'a', '/', 'b', '.', 't', 'm', 'p', 'l']
    ['/', 'x'] ['/', 'y'] (by decide) (by decide) (by decide)

/-! ## C3 -/

/-- Final step of `pathClean`: the result is never the empty string. -/
theorem cleanEnd_ne_nil (racc : List Char) :
    (if racc = [] then ['.'] else racc.reverse) ≠ [] := by
  split
  · simp
  · rename_i h
    intro hh
    exact h (List.reverse_eq_nil_iff.mp hh)

/-- `pathClean` never returns the empty string. -/
theorem pathClean_ne_nil (p : GoStr) : pathClean p ≠ [] := by
  unfold pathClean
  by_cases hp : p = []
  · simp [hp]
  · rw [if_neg hp]
    exact cleanEnd_ne_nil _

/-- `pathJoin` with a non-empty first element never returns the empty
string. -/
theorem pathJoin_ne_nil (a b : GoStr) (ha : a ≠ []) : pathJoin a b ≠ [] := by
  unfold pathJoin
  rw [if_neg (fun h => ha h.1), if_neg ha]
  split
  · exact pathClean_ne_nil a
  · exact pathClean_ne_nil _

/-- `filepath.Abs` never returns the empty string (the working directory
of a running process is non-empty). -/
theorem filepathAbs_ne_nil (cwd p : GoStr) (hcwd : cwd ≠ []) : filepathAbs cwd p ≠ [] := by
  unfold filepathAbs
  split
  · exact pathClean_ne_nil p
  · exact pathJoin_ne_nil cwd p hcwd

/-- `filepath.Abs` of the empty string is the cleaned working directory. -/
theorem filepathAbs_nil (cwd : GoStr) (hcwd : cwd ≠ []) : filepathAbs cwd [] = pathClean cwd := by
  simp [filepathAbs, pathIsAbs, pathJoin, hcwd]

/-- Amended C3: the prefixes reaching the mapping are the `filepath.Abs`
values of the flags and are never empty; a template directory starting
with the absolutized original prefix is rewritten to the absolutized new
prefix plus the unchanged remainder (exactly the new prefix, without a
separator, when the original prefix is the whole directory); and with
both prefix flags unset both absolutized prefixes equal the cleaned
working directory, so template paths under the working directory map in
place.  (With exactly one flag unset the mapping rewrites against the
working directory instead of staying in place, which is why the
unamended claim fails.) -/
theorem output_directory_with_abs_prefixes (cwd p : GoStr) (f : Flags) (hcwd : cwd ≠ []) :
    (f.origParentAbs cwd ≠ [] ∧ f.newParentAbs cwd ≠ [])
  ∧ ((f.origParentAbs cwd).isPrefixOf (pathDir (pathClean p)) = true →
        convertDir (pathDir (pathClean p)) (f.origParentAbs cwd) (f.newParentAbs cwd)
          = some (f.newParentAbs cwd
              ++ (pathDir (pathClean p)).drop (f.origParentAbs cwd).length))
  ∧ (f.origParentAbs cwd = pathDir (pathClean p) →
        convertDir (pathDir (pathClean p)) (f.origParentAbs cwd) (f.newParentAbs cwd)
          = some (f.newParentAbs cwd))
  ∧ (f.origParent = [] → f.newParent = [] →
        f.origParentAbs cwd = pathClean cwd ∧ f.newParentAbs cwd = pathClean cwd
        ∧ ((pathClean cwd).isPrefixOf (pathDir (pathClean p)) = true →
            convertDir (pathDir (pathClean p)) (f.origParentAbs cwd) (f.newParentAbs cwd)
              = some (pathDir (pathClean p)))) := by
  have ho : f.origParentAbs cwd ≠ [] := filepathAbs_ne_nil cwd f.origParent hcwd
  have hn : f.newParentAbs cwd ≠ [] := filepathAbs_ne_nil cwd f.newParent hcwd
  refine ⟨⟨ho, hn⟩, fun hpre => convertDir_rewrite _ _ _ ho hn hpre, fun heq => ?_, ?_⟩
  · rw [convertDir_rewrite _ _ _ ho hn (heq ▸ isPrefixOf_self (f.origParentAbs cwd))]
    rw [heq, List.drop_length, List.append_nil]
  · intro ho0 hn0
    have habs : f.origParentAbs cwd = pathClean cwd := by
      rw [Flags.origParentAbs, ho0]
      exact filepathAbs_nil cwd hcwd
    have habs' : f.newParentAbs cwd = pathClean cwd := by
      rw [Flags.newParentAbs, hn0]
      exact filepathAbs_nil cwd hcwd
    refine ⟨habs, habs', fun hpre => ?_⟩
    rw [habs, habs']
    rw [convertDir_rewrite _ _ _ (pathClean_ne_nil cwd) (pathClean_ne_nil cwd) hpre]
    rw [List.prefix_iff_eq_append.mp (List.isPrefixOf_iff_prefix.mp hpre)]

/-- Witness for the amended C3: with `-orig /w -new /n` in working
directory `/w`, the directory of `/w/a/b.tmpl` is rewritten to the new
prefix plus the remainder. -/
theorem output_directory_with_abs_prefixes_witness :
    convertDir
      (pathDir (pathClean ['/', 'w', '/', 'a', '/', 'b', '.', 't', 'm', 'p', 'l']))
      (Flags.origParentAbs
        ⟨true, false, false, false, false, [], [], ['/', 'w'], ['/', 'n']⟩ ['/', 'w'])
      (Flags.newParentAbs
        ⟨true, false, false, false, false, [], [], ['/', 'w'], ['/', 'n']⟩ ['/', 'w'])
      = some (Flags.newParentAbs
            ⟨true, false, false, false, false, [], [], ['/', 'w'], ['/', 'n']⟩ ['/', 'w']
          ++ (pathDir (pathClean
                ['/', 'w', '/', 'a', '/', 'b', '.', 't', 'm', 'p', 'l'])).drop
              (Flags.origParentAbs
                ⟨true, false, false, false, false, [], [], ['/', 'w'], ['/', 'n']⟩
                ['/', 'w']).length) :=
  (output_directory_with_abs_prefixes ['/', 'w']
    ['/', 'w', '/', 'a', '/', 'b', '.', 't', 'm', 'p', 'l']
    ⟨true, false, false, false, false, [], [], ['/', 'w'], ['/', 'n']⟩
    (by decide)).2.1 (by decide)

/-- Counterexample to C3 as stated: in working directory `/w` with the
`-orig` flag unset and `-new` set to `/n`, `filepath.Abs` turns the unset
flag into `/w`, so the scanned file `/w/a/b.tmpl` maps to `/n/a/b` — not
to the in-place path `/w/a/b` the claim requires when a prefix is
absent. -/
theorem absent_prefix_not_verbatim :
    convertOutputPathFlags ['/', 'w']
        ⟨true, false, false, false, false, [], [], [], ['/', 'n']⟩
        ['/', 'w', '/', 'a', '/', 'b', '.', 't', 'm', 'p', 'l']
      = some ['/', 'n', '/', 'a', '/', 'b']
    ∧ convertOutputPathFlags ['/', 'w']
        ⟨true, false, false, false, false, [], [], [], ['/', 'n']⟩
        ['/', 'w', '/', 'a', '/', 'b', '.', 't', 'm', 'p', 'l']
      ≠ some (pathJoin
          (pathDir (pathClean ['/', 'w', '/', 'a', '/', 'b', '.', 't', 'm', 'p', 'l']))
          (stripTempl (pathBase
            (pathClean ['/', 'w', '/', 'a', '/', 'b', '.', 't', 'm', 'p', 'l'])))) := by
  exact ⟨by decide, by decide⟩

/-! ## C5 -/

/-- C5: when `origParent` is a non-empty strict prefix of the template's
directory and `newParent` is supplied, the mapped output directory is
`newParent` plus the remainder, and mapping that output directory with
the two prefixes swapped returns the original directory. -/
theorem convertDir_roundtrip (p origParent newParent : GoStr)
    (ho : origParent ≠ []) (hn : newParent ≠ [])
    (hpre : origParent.isPrefixOf (pathDir (pathClean p)) = true)
    (hstrict : origParent ≠ pathDir (pathClean p)) :
    convertDir (pathDir (pathClean p)) origParent newParent
      = some (newParent ++ (pathDir (pathClean p)).drop origParent.length)
    ∧ convertDir (newParent ++ (pathDir (pathClean p)).drop origParent.length)
        newParent origParent
      = some (pathDir (pathClean p)) := by
  set d := pathDir (pathClean p) with hd
  have hpfx : origParent <+: d := List.isPrefixOf_iff_prefix.mp hpre
  have happ : origParent ++ d.drop origParent.length = d :=
    List.prefix_iff_eq_append.mp hpfx
  have hrem : d.drop origParent.length ≠ [] := by
    intro hnil
    exact hstrict (by rw [← happ, hnil, List.append_nil])
  refine ⟨convertDir_rewrite d origParent newParent ho hn hpre, ?_⟩
  unfold convertDir
  rw [if_pos ⟨hn, ho⟩, if_pos (isPrefixOf_append_right newParent _)]
  rw [if_neg ?_, List.drop_left, happ]
  intro hlen
  rw [List.length_append] at hlen
  exact hrem (List.eq_nil_of_length_eq_zero (by omega))

/-- Witness for C5 on `/src/app/f.tmpl` with prefix pair `/src`, `/dst`. -/
theorem convertDir_roundtrip_witness :
    convertDir (pathDir (pathClean
        ['/', 's', 'r', 'c', '/', 'a', 'p', 'p', '/', 'f', '.', 't', 'm', 'p', 'l']))
      ['/', 's', 'r', 'c'] ['/', 'd', 's', 't']
      = some (['/', 'd', 's', 't']
          ++ (pathDir (pathClean
            ['/', 's', 'r', 'c', '/', 'a', 'p', 'p', '/', 'f', '.', 't', 'm', 'p', 'l'])).drop 4)
    ∧ convertDir (['/', 'd', 's', 't']
          ++ (pathDir (pathClean
            ['/', 's', 'r', 'c', '/', 'a', 'p', 'p', '/', 'f', '.', 't', 'm', 'p', 'l'])).drop 4)
        ['/', 'd', 's', 't'] ['/', 's', 'r', 'c']
      = some (pathDir (pathClean
          ['/', 's', 'r', 'c', '/', 'a', 'p', 'p', '/', 'f', '.', 't', 'm', 'p', 'l'])) :=
  convertDir_roundtrip
    ['/', 's', 'r', 'c', '/', 'a', 'p', 'p', '/', 'f', '.', 't', 'm', 'p', 'l']
    ['/', 's', 'r', 'c'] ['/', 'd', 's', 't']
    (by decide) (by decide) (by decide) (by decide)

/-! ## C8 -/

/-- C8: an existing-file lookup error other than not-exist is logged and
still classified CREATE, and FAIL arises at classification time exactly
from render errors. -/
theorem lookup_error_degrades_to_create :
    (∀ b : Bytes, classifyWithLogs (.ok b) (.error .other)
        = (Mode.CREATE, [LogEvent.unexpectedExisting]))
  ∧ (∀ (render : Except Unit Bytes) (existing : Except FileErr Bytes),
        classifyMode render existing = Mode.FAIL ↔ render = .error ()) := by
  refine ⟨fun b => rfl, fun render existing => ?_⟩
  cases render with
  | error u => cases u; simp [classifyMode, classifyWithLogs]
  | ok b =>
    cases existing with
    | error fe => cases fe <;> simp [classifyMode, classifyWithLogs]
    | ok e =>
      by_cases hbe : b = e <;> simp [classifyMode, classifyWithLogs, hbe]

/-- Witness for C8: an unreadable existing file classifies as CREATE with
the unexpected-error log message. -/
theorem lookup_error_degrades_to_create_witness :
    classifyWithLogs (.ok [7]) (.error .other)
      = (Mode.CREATE, [LogEvent.unexpectedExisting]) :=
  lookup_error_degrades_to_create.1 [7]

/-! ## C4 -/

/-- Occurrence-free strings pass through `replaceFirst` unchanged. -/
theorem replaceFirst_of_not_infix (s pat : GoStr) (h : ¬ pat <:+: s) :
    replaceFirst s pat = s := by
  induction s with
  | nil => rfl
  | cons c rest ih =>
    rw [replaceFirst, if_neg, ih (fun hin => h (List.infix_cons hin))]
    intro hb
    exact h (List.isPrefixOf_iff_prefix.mp hb).isInfix

/-- The pattern `".tmpl"` has no non-trivial border, so it cannot start a
match that straddles `pre` and an appended copy of itself. -/
theorem tmpl_not_prefix_of_append (pre post : GoStr) (hne : pre ≠ [])
    (hinf : ¬ tmplSuffix <:+: pre) :
    ¬ tmplSuffix.isPrefixOf (pre ++ (tmplSuffix ++ post)) = true := by
  intro hb
  have hpfx : tmplSuffix <+: pre ++ (tmplSuffix ++ post) :=
    List.isPrefixOf_iff_prefix.mp hb
  have htake : tmplSuffix = (pre ++ (tmplSuffix ++ post)).take tmplSuffix.length :=
    List.prefix_iff_eq_take.mp hpfx
  by_cases hk : tmplSuffix.length ≤ pre.length
  · rw [List.take_append_eq_append_take, Nat.sub_eq_zero_of_le hk, List.take_zero,
      List.append_nil] at htake
    have hpp : tmplSuffix <+: pre := by rw [htake]; exact List.take_prefix _ pre
    exact hinf hpp.isInfix
  · push_neg at hk
    rw [List.take_append_eq_append_take,
      List.take_of_length_le (Nat.le_of_lt hk),
      List.take_append_eq_append_take,
      Nat.sub_eq_zero_of_le (Nat.sub_le _ _), List.take_zero, List.append_nil] at htake
    have heq : tmplSuffix.drop pre.length
        = tmplSuffix.take (tmplSuffix.length - pre.length) := by
      conv_lhs => rw [htake]
      exact List.drop_left pre _
    have hk1 : 1 ≤ pre.length := List.length_pos.mpr hne
    have hk2 : pre.length < 5 := hk
    obtain ⟨k, hkdef⟩ : ∃ k, pre.length = k := ⟨_, rfl⟩
    rw [hkdef] at heq hk1 hk2
    interval_cases k <;> exact absurd heq (by decide)

/-- With no occurrence of `".tmpl"` in `pre`, `replaceFirst` removes
exactly the appended occurrence. -/
theorem replaceFirst_append_tmpl (pre post : GoStr) (h : ¬ tmplSuffix <:+: pre) :
    replaceFirst (pre ++ tmplSuffix ++ post) tmplSuffix = pre ++ post := by
  induction pre with
  | nil =>
    simp only [List.nil_append]
    have hcons : tmplSuffix ++ post = '.' :: (['t', 'm', 'p', 'l'] ++ post) := rfl
    rw [hcons, replaceFirst, ← hcons, if_pos (isPrefixOf_append_right tmplSuffix post)]
    exact List.drop_left tmplSuffix post
  | cons c pre' ih =>
    have hstep : (c :: pre') ++ tmplSuffix ++ post = c :: (pre' ++ tmplSuffix ++ post) := by
      simp
    rw [hstep, replaceFirst, if_neg, List.cons_append,
      ih (fun hin => h (List.infix_cons hin))]
    have hassoc : pre' ++ tmplSuffix ++ post = pre' ++ (tmplSuffix ++ post) :=
      List.append_assoc pre' tmplSuffix post
    rw [show c :: (pre' ++ tmplSuffix ++ post) = (c :: pre') ++ (tmplSuffix ++ post) by simp]
    exact tmpl_not_prefix_of_append (c :: pre') post (by simp) h

/-- C4: suffix stripping removes exactly the first occurrence of
`".tmpl"` from the base name, leaving everything after it (including a
second occurrence) unchanged, and leaves names without any occurrence
unchanged. -/
theorem stripTempl_first_occurrence_only :
    (∀ pre post : GoStr, ¬ tmplSuffix <:+: pre →
        stripTempl (pre ++ tmplSuffix ++ post) = pre ++ post)
  ∧ (∀ s : GoStr, ¬ tmplSuffix <:+: s → stripTempl s = s) := by
  exact ⟨fun pre post h => replaceFirst_append_tmpl pre post h,
    fun s h => replaceFirst_of_not_infix s tmplSuffix h⟩

/-- Witness for C4: `"a.tmpl.tmpl"` loses only its first `".tmpl"`, and
`"foo"` is unchanged. -/
theorem stripTempl_first_occurrence_only_witness :
    stripTempl (['a'] ++ tmplSuffix ++ ['.', 't', 'm', 'p', 'l'])
      = ['a'] ++ ['.', 't', 'm', 'p', 'l']
    ∧ stripTempl ['f', 'o', 'o'] = ['f', 'o', 'o'] :=
  ⟨stripTempl_first_occurrence_only.1 ['a'] ['.', 't', 'm', 'p', 'l'] (by decide),
   stripTempl_first_occurrence_only.2 ['f', 'o', 'o'] (by decide)⟩

/-! ## C9 -/

/-- Unfolding of the `(\.|$)` test. -/
theorem boundaryAfter_eq_true (l : List Char) :
    boundaryAfter l = true ↔ l = [] ∨ ∃ t, l = '.' :: t := by
  cases l with
  | nil => simp [boundaryAfter]
  | cons c t => simp [boundaryAfter]

/-- Amended C9: the scanner's pattern matches exactly the names that
contain `".tmpl"` ending at a segment boundary (at the end of the name or
followed by a dot) with no newline anywhere before the occurrence;
`.*` in a Go regular expression does not match newline. -/
theorem templRegExMatch_characterisation (s : GoStr) :
    templRegExMatch s = true ↔
      ∃ a b, s = a ++ tmplSuffix ++ b ∧ '\n' ∉ a ∧ (b = [] ∨ ∃ t, b = '.' :: t) := by
  induction s with
  | nil =>
    simp only [templRegExMatch, Bool.false_eq_true, false_iff]
    rintro ⟨a, b, hs, -, -⟩
    have := hs.symm
    simp [tmplSuffix] at this
  | cons c r ih =>
    simp only [templRegExMatch, Bool.or_eq_true, Bool.and_eq_true, bne_iff_ne]
    constructor
    · rintro (⟨hpref, hbound⟩ | ⟨hne, hmatch⟩)
      · refine ⟨[], (c :: r).drop tmplSuffix.length, ?_, by simp, ?_⟩
        · have := List.prefix_iff_eq_append.mp (List.isPrefixOf_iff_prefix.mp hpref)
          simp [this]
        · exact (boundaryAfter_eq_true _).mp hbound
      · obtain ⟨a, b, hs, hnl, hb⟩ := ih.mp hmatch
        refine ⟨c :: a, b, by simp [hs], ?_, hb⟩
        simp only [List.mem_cons, not_or]
        exact ⟨fun hc => hne hc.symm, hnl⟩
    · rintro ⟨a, b, hs, hnl, hb⟩
      cases a with
      | nil =>
        left
        simp only [List.nil_append] at hs
        constructor
        · rw [hs]
          exact isPrefixOf_append_right tmplSuffix b
        · rw [hs, show (tmplSuffix ++ b).drop tmplSuffix.length = b from List.drop_left _ _]
          exact (boundaryAfter_eq_true b).mpr hb
      | cons a₀ a' =>
        right
        have hs' : c = a₀ ∧ r = a' ++ tmplSuffix ++ b := by
          simpa using hs
        refine ⟨?_, ih.mpr ⟨a', b, hs'.2, fun hm => hnl (List.mem_cons_of_mem a₀ hm), hb⟩⟩
        rw [hs'.1]
        intro heq
        exact hnl (heq ▸ List.mem_cons_self a₀ a')

/-- Witness for the amended C9 at the concrete name `"f.tmpl"`. -/
theorem templRegExMatch_characterisation_witness :
    templRegExMatch ['f', '.', 't', 'm', 'p', 'l'] = true :=
  (templRegExMatch_characterisation ['f', '.', 't', 'm', 'p', 'l']).mpr
    ⟨['f'], [], by decide, by decide, Or.inl rfl⟩

/-- Counterexample to C9 as stated: the name `"a\nb.tmpl"` contains
`".tmpl"` ending at a segment boundary (at the end of the name), yet the
scanner's pattern does not match it, because the newline blocks `.*`. -/
theorem templRegExMatch_newline_counterexample :
    templRegExMatch ['a', '\n', 'b', '.', 't', 'm', 'p', 'l'] = false
    ∧ ['a', '\n', 'b', '.', 't', 'm', 'p', 'l']
        = ['a', '\n', 'b'] ++ tmplSuffix ++ [] := by
  exact ⟨by decide, by decide⟩

/-! ## C6 -/

/-- C6: when the interactive prompt is shown for an existing output file,
a trimmed case-insensitive `"y"`/`"yes"` answer proceeds to overwrite,
and any other answer yields the `skipReplace` outcome, which the scan
treats as silent success: no log message, no status line, the file state
untouched, and the walk continues. -/
theorem prompt_yes_no_behaviour (f : Flags) (answer : GoStr) (s : OutState)
    (b : Bytes) (copyOk : Bool)
    (hscan : f.scan = true) (hint : f.interactive = true) (hdry : f.dryRun = false)
    (hpres : s.present = true) (hread : s.readable = true)
    (hdiff : b ≠ s.contents) :
    (promptYes answer = true →
        promptAndCreateOutputFile f answer s = .ok (.file, freshOutputFile))
  ∧ (promptYes answer = false →
        promptAndCreateOutputFile f answer s = .error .skipReplace
        ∧ scanStep f true (.ok b) answer copyOk s = ⟨none, [], s⟩) := by
  have hprompt : f.shouldPromptBeforeWrite = true := by
    simp [Flags.shouldPromptBeforeWrite, Flags.isStdin, hscan, hint]
  constructor
  · intro hyes
    simp [promptAndCreateOutputFile, Flags.shouldDryRun, hdry, hprompt, statOk, hpres,
      hyes, createOutputFile_eq]
  · intro hno
    have hgate : promptAndCreateOutputFile f answer s = .error .skipReplace := by
      simp [promptAndCreateOutputFile, Flags.shouldDryRun, hdry, hprompt, statOk,
        hpres, hno]
    refine ⟨hgate, ?_⟩
    have hex : getExistingOutputFileContents s = .ok s.contents := by
      simp [getExistingOutputFileContents, hpres, hread]
    simp [scanStep, hex, classifyWithLogs, hdiff, hgate]

/-- Witness for C6: declining the prompt with `"n"` on an existing
differing file is a silent skip. -/
theorem prompt_yes_no_behaviour_witness :
    promptAndCreateOutputFile ⟨true, false, false, true, false, [], [], [], []⟩ ['n']
        ⟨true, true, [0], false, true⟩ = .error .skipReplace
    ∧ scanStep ⟨true, false, false, true, false, [], [], [], []⟩ true (.ok [1]) ['n'] true
        ⟨true, true, [0], false, true⟩ = ⟨none, [], ⟨true, true, [0], false, true⟩⟩ :=
  (prompt_yes_no_behaviour ⟨true, false, false, true, false, [], [], [], []⟩ ['n']
    ⟨true, true, [0], false, true⟩ [1] true rfl rfl rfl rfl rfl (by decide)).2 (by decide)

/-! ## C7 -/

/-- Amended C7: in dry-run mode no output file is created, truncated or
changed in content, the decision pipeline still runs and the status line
reports the classification exactly as if the write had happened; and
when the read-only flag is unset the on-disk state is entirely
unchanged.  (With the read-only flag set, an existing output file is
still chmod'd to 0444 even in dry-run mode, which is why the unamended
claim fails.) -/
theorem dry_run_preserves_output_file (f : Flags) (render : Except Unit Bytes)
    (answer : GoStr) (copyOk : Bool) (s : OutState)
    (hdry : f.dryRun = true) :
    ((scanStep f true render answer copyOk s).state.present = s.present
      ∧ (scanStep f true render answer copyOk s).state.readable = s.readable
      ∧ (scanStep f true render answer copyOk s).state.contents = s.contents
      ∧ (scanStep f true render answer copyOk s).state.parentExists = s.parentExists)
  ∧ (f.readOnly = false → (scanStep f true render answer copyOk s).state = s)
  ∧ (scanStep f true render answer copyOk s).line
      = some (classifyMode render (getExistingOutputFileContents s)) := by
  have hg : promptAndCreateOutputFile f answer s = .ok (.discard, s) := by
    simp [promptAndCreateOutputFile, Flags.shouldDryRun, hdry]
  by_cases hcl : (classifyWithLogs render (getExistingOutputFileContents s)).1 = Mode.MODIFY
      ∨ (classifyWithLogs render (getExistingOutputFileContents s)).1 = Mode.CREATE <;>
    by_cases hro : f.readOnly = true <;>
    by_cases hp : s.present = true <;>
    refine ⟨⟨?_, ?_, ?_, ?_⟩, ?_, ?_⟩ <;>
    simp [scanStep, hg, markFileReadOnly, classifyMode, hcl, hro, hp]

/-- Witness for the amended C7 on a concrete dry run. -/
theorem dry_run_preserves_output_file_witness :
    (scanStep ⟨true, false, true, false, false, [], [], [], []⟩ true (.ok []) [] true
        ⟨false, false, [], false, false⟩).state
      = ⟨false, false, [], false, false⟩ :=
  (dry_run_preserves_output_file ⟨true, false, true, false, false, [], [], [], []⟩
    (.ok []) [] true ⟨false, false, [], false, false⟩ rfl).2.1 rfl

/-- Counterexample to C7 as stated: with dry-run and the read-only flag
both set, processing an existing differing output file chmods it to
read-only — a filesystem mutation during a dry run. -/
theorem dry_run_chmod_counterexample :
    (scanStep ⟨true, false, true, false, true, [], [], [], []⟩ true (.ok [1]) [] true
        ⟨true, true, [0], false, true⟩).state
      = ⟨true, true, [0], true, true⟩
    ∧ (⟨true, true, [0], false, true⟩ : OutState).readOnly = false := by
  exact ⟨by decide, rfl⟩

/-! ## C10 -/

/-- C10: a non-dry-run write the output gate decides to perform removes
any existing file and creates the parent directories before creating the
new file; consequently even a read-only (0444) output file left by a
previous run is successfully overwritten — while a bare create on that
file would fail. -/
theorem output_gate_overwrites_readonly (f : Flags) (answer : GoStr) (s : OutState)
    (hdry : f.dryRun = false) (hpres : s.present = true) (hro : s.readOnly = true)
    (hdec : f.shouldPromptBeforeWrite = false ∨ promptYes answer = true) :
    createOutputFile s = osCreate (osMkdirAll (osRemove s))
    ∧ promptAndCreateOutputFile f answer s = .ok (.file, freshOutputFile)
    ∧ freshOutputFile.readOnly = false ∧ freshOutputFile.present = true
    ∧ osCreate s = .error () := by
  refine ⟨rfl, ?_, rfl, rfl, ?_⟩
  · by_cases hsp : f.shouldPromptBeforeWrite = true
    · have hyes : promptYes answer = true := hdec.resolve_left (by simp [hsp])
      simp [promptAndCreateOutputFile, Flags.shouldDryRun, hdry, hsp, statOk, hpres,
        hyes, createOutputFile_eq]
    · rw [Bool.not_eq_true] at hsp
      simp [promptAndCreateOutputFile, Flags.shouldDryRun, hdry, hsp, createOutputFile_eq]
  · cases hpe : s.parentExists <;> simp [osCreate, hpres, hro, hpe]

/-- Witness for C10: a read-only output file is overwritten by a
non-interactive run. -/
theorem output_gate_overwrites_readonly_witness :
    promptAndCreateOutputFile ⟨true, false, false, false, false, [], [], [], []⟩ []
        ⟨true, true, [5], true, true⟩ = .ok (.file, freshOutputFile) :=
  (output_gate_overwrites_readonly ⟨true, false, false, false, false, [], [], [], []⟩ []
    ⟨true, true, [5], true, true⟩ rfl rfl rfl (Or.inl rfl)).2.1

end Templater
